import Mathlib

/-!
Verification development for the travelapp_pandas repository.

The definitions below are a shallow embedding of `src/weather/services.py`.
DataFrames are modelled as Lean lists: a weather-history DataFrame is a
`List HRow`, the cleaned city-attributes DataFrame is a `List CRow`, and a
raw CSV table (the result of `pd.read_csv`) is a `RawTable` of column names
plus rows of Python-like cell values (`PyVal`).  Python strings are Lean
`String`s; `str.strip`/`str.lower`/`str.casefold` are modelled over the
character list (ASCII case mapping, which covers every token the code
compares against).  Floats are modelled as rationals `ℚ`; a float `NaN`
cell, like `pd.NA`, is the `PyVal.na` value.
-/

namespace TravelApp

/-- ASCII lower-casing of one character (model of Python `str.lower` /
`str.casefold` at character level). -/
def lowerChar (c : Char) : Char :=
  if 'A' ≤ c ∧ c ≤ 'Z' then Char.ofNat (c.toNat + 32) else c

/-- Model of Python `str.lower()` and `str.casefold()` (they agree on ASCII,
which covers all tokens compared by the code). -/
def lowerStr (s : String) : String := ⟨s.data.map lowerChar⟩

/-- Whitespace test used by the model of `str.strip()`. -/
def isWs (c : Char) : Bool := c = ' ' || c = '\t' || c = '\n' || c = '\r'

def trimChars (l : List Char) : List Char :=
  ((l.dropWhile isWs).reverse.dropWhile isWs).reverse

/-- Model of Python `str.strip()`. -/
def trimStr (s : String) : String := ⟨trimChars s.data⟩

/-- Substring test over character lists. -/
def containsSub (pat : List Char) : List Char → Bool
  | [] => pat.isEmpty
  | h :: t => pat.isPrefixOf (h :: t) || containsSub pat t

/-- Model of `pat in hay` on Python strings (plain substring containment;
`Series.str.contains("snow", ...)` uses the regex `snow`, which has no
metacharacters and therefore matches exactly as a substring). -/
def strContains (hay pat : String) : Bool := containsSub pat.data hay.data

/-- Python-like cell value as it sits in a pandas object column after
`pd.read_csv`: missing (`NaN`/`pd.NA`), a string, an integer, a float
(modelled as `ℚ`), or a boolean. -/
inductive PyVal where
  | na : PyVal
  | str (s : String) : PyVal
  | int (n : Int) : PyVal
  | float (q : ℚ) : PyVal
  | bool (b : Bool) : PyVal
deriving DecidableEq

/-- Model of `Series.astype("string")`: `pd.NA` is preserved, any other
value is rendered through Python `str()`. -/
def asStringVal : PyVal → Option String
  | .na => none
  | .str s => some s
  | .int n => some (toString n)
  | .float q => some (toString q)
  | .bool b => some (if b then "True" else "False")

def allDigits (l : List Char) : Bool := !l.isEmpty && l.all Char.isDigit

def digitsVal (l : List Char) : Nat :=
  l.foldl (fun a c => a * 10 + (c.toNat - 48)) 0

/-- Model of numeric-string parsing as done by `pd.to_numeric`: optional
sign, decimal digits, optional fractional part (scientific notation is not
modelled; no code path or claim exercises it). -/
def parseRat (s : String) : Option ℚ :=
  let cs := trimChars s.data
  let signAndRest : Int × List Char :=
    match cs with
    | '-' :: t => (-1, t)
    | '+' :: t => (1, t)
    | _ => (1, cs)
  match signAndRest.2.splitOn '.' with
  | [ip] =>
      if allDigits ip then some (signAndRest.1 * (digitsVal ip : ℚ)) else none
  | [ip, fp] =>
      if (allDigits ip || ip.isEmpty) && (allDigits fp || fp.isEmpty)
          && !(ip.isEmpty && fp.isEmpty) then
        some (signAndRest.1 *
          ((digitsVal ip : ℚ) + (digitsVal fp : ℚ) / ((10 : ℚ) ^ fp.length)))
      else none
  | _ => none

/-- Model of `pd.to_numeric(value, errors="coerce")` on one cell. -/
def toNumericVal : PyVal → Option ℚ
  | .na => none
  | .int n => some (n : ℚ)
  | .float q => some q
  | .bool b => some (if b then 1 else 0)
  | .str s => parseRat s

/-- A UTC instant, as carried by the `timestamp_utc` column. -/
structure Timestamp where
  year : Nat
  month : Nat
  day : Nat
  hour : Nat
  minute : Nat
  second : Nat
deriving DecidableEq

/-- Encoding used only to compare timestamps when sorting. -/
def Timestamp.key (t : Timestamp) : Nat :=
  ((((t.year * 13 + t.month) * 32 + t.day) * 24 + t.hour) * 60 + t.minute) * 60
    + t.second

def monthNames : List String :=
  ["January", "February", "March", "April", "May", "June", "July",
   "August", "September", "October", "November", "December"]

/-- Model of `Series.dt.month_name()` applied to a datetime with the given
calendar month number. -/
def monthName (m : Nat) : String :=
  if 1 ≤ m ∧ m ≤ 12 then monthNames.getD (m - 1) "" else ""

/-- `WINTER_MONTH_NAMES` from `services.py`. -/
def WINTER_MONTH_NAMES : List String := ["December", "January", "February"]

/-- Model of `pd.to_datetime(value, utc=True, errors="coerce")` on one cell,
for the canonical persisted format `YYYY-MM-DDTHH:MM:SSZ` (other accepted
spellings of the same instant are not needed by any claim); unparseable
values become `NaT`, i.e. `none`. -/
def parseTimestampVal (v : PyVal) : Option Timestamp :=
  match v with
  | .str s =>
      match s.data.splitOn 'T' with
      | [dpart, tpart] =>
          match dpart.splitOn '-', tpart.splitOn ':' with
          | [y, mo, d], [h, mi, sec] =>
              let sec' := if sec.getLast? = some 'Z' then sec.dropLast else sec
              if allDigits y && allDigits mo && allDigits d && allDigits h
                  && allDigits mi && allDigits sec' then
                some ⟨digitsVal y, digitsVal mo, digitsVal d,
                      digitsVal h, digitsVal mi, digitsVal sec'⟩
              else none
          | _, _ => none
      | _ => none
  | _ => none

/-- One row of a weather-history DataFrame (`HISTORY_COLUMNS` schema).
`city`, `timestamp_utc` and `source` can be missing (`pd.NA` / `NaT`);
`description` and the numeric columns hold whatever cell value the frame
carries (loaded history does not coerce them). -/
structure HRow where
  city : Option String
  timestamp_utc : Option Timestamp
  source : Option String
  description : PyVal
  temperature_C : PyVal
  feels_like_C : PyVal
  humidity_pct : PyVal
  wind_kmph : PyVal
deriving DecidableEq

/-- The identity key `(city, timestamp_utc, source)` used by
`drop_duplicates` in `append_history`. -/
def hkey (r : HRow) : Option String × Option Timestamp × Option String :=
  (r.city, r.timestamp_utc, r.source)

/-- Model of `DataFrame.drop_duplicates(subset=key, keep="last")`: a row is
kept exactly when no later row has the same key; kept rows stay in their
original relative order. -/
def keepLastBy {α κ : Type} [DecidableEq κ] (key : α → κ) : List α → List α
  | [] => []
  | a :: as =>
      if as.any (fun b => decide (key b = key a)) then keepLastBy key as
      else a :: keepLastBy key as

/-- Comparison used by `sort_values("timestamp_utc")`: ascending, with
missing timestamps (`NaT`) placed last (pandas `na_position="last"`). -/
def tsLeB : Option Timestamp → Option Timestamp → Bool
  | some x, some y => decide (x.key ≤ y.key)
  | none, some _ => false
  | _, none => true

/-- Model of `DataFrame.sort_values("timestamp_utc")`. -/
def sortByTimestamp (l : List HRow) : List HRow :=
  List.insertionSort (fun a b => tsLeB a.timestamp_utc b.timestamp_utc = true) l

/-- Embedding of `append_history` (`services.py` lines 157-164): concat,
deduplicate by `(city, timestamp_utc, source)` keeping the last occurrence,
sort ascending by timestamp.  (`reset_index(drop=True)` is the identity on
the row sequence.) -/
def append_history (history_df new_df : List HRow) : List HRow :=
  sortByTimestamp (keepLastBy hkey
    (if history_df.isEmpty then new_df else history_df ++ new_df))

/-- Embedding of `filter_history_for_winter_snow` (`services.py` lines
270-282).  `pd.to_datetime` on the already-datetime column is the identity
(`NaT` stays `NaT`, and `month_name()` of `NaT` is missing, so `isin` is
false); `str.contains("snow", case=False, na=False)` is a case-insensitive
substring test that is false on a missing description. -/
def filter_history_for_winter_snow (history_df : List HRow)
    (require_winter_snow : Bool) : List HRow :=
  if !require_winter_snow then history_df
  else if history_df.isEmpty then history_df
  else
    history_df.filter (fun r =>
      (match r.timestamp_utc with
       | some t => decide (monthName t.month ∈ WINTER_MONTH_NAMES)
       | none => false)
      && (match asStringVal r.description with
          | some d => strContains (lowerStr d) "snow"
          | none => false))

/-- The cities DataFrame as consumed by `filter_history_by_cities`: its row
count (pandas `.empty` is `nrows = 0`) and, when the `city_key` column is
present, that column's values. -/
structure CitiesDf where
  nrows : Nat
  city_key_col : Option (List String)

/-- Embedding of `filter_history_by_cities` (`services.py` lines 255-267).
The `raise KeyError(...)` is the `Except.error` branch; `set(...)`
membership is list membership; dropping the helper `_city_key` column and
`reset_index` are the identity on the row sequence. -/
def filter_history_by_cities (history_df : List HRow) (cities_df : CitiesDf) :
    Except String (List HRow) :=
  if history_df.isEmpty then .ok history_df
  else if cities_df.nrows = 0 then .ok []
  else
    match cities_df.city_key_col with
    | none => .error "KeyError: expected city_key column in cities_df"
    | some keys =>
        .ok (history_df.filter (fun r =>
          match r.city with
          | some c => decide (lowerStr (trimStr c) ∈ keys)
          | none => false))

/-- One row of the cleaned city-attributes DataFrame produced by
`load_home_prices`. -/
structure CRow where
  city : String
  avg_home_price : ℚ
  has_beach : Bool
  has_mountain : Bool
  continent : Option String
  city_key : String
deriving DecidableEq

/-- A raw CSV table as produced by `pd.read_csv`: column names plus rows of
cell values. -/
structure RawTable where
  cols : List String
  rows : List (List PyVal)

/-- Cell access `df[column]` for one row; a column that is absent from the
table reads as missing (this also models `df[column] = pd.NA` followed by
`reindex` in `load_history`). -/
def RawTable.cell (t : RawTable) (row : List PyVal) (c : String) : PyVal :=
  match t.cols.indexOf? c with
  | some i => row.getD i .na
  | none => .na

def HOME_PRICE_BASE_COLUMNS : List String := ["city", "avg_home_price"]

def HOME_PRICE_OPTIONAL_BEACH_COLUMNS : List String :=
  ["has_beach", "Beaches", "beach", "has_beaches"]

def HOME_PRICE_OPTIONAL_MOUNTAIN_COLUMNS : List String :=
  ["has_mountain", "Mountains", "mountains", "has_mountains"]

def HOME_PRICE_OPTIONAL_CONTINENT_COLUMNS : List String :=
  ["continent", "Continent", "region", "Region"]

/-- The truthy-token set of `_coerce_bool`. -/
def TRUTHY_TOKENS : List String := ["true", "1", "yes", "y", "t", "on"]

/-- Embedding of `_coerce_bool` (`services.py` lines 85-90): missing is
false; strings are stripped, lower-cased and tested against the truthy
tokens; any other value goes through Python `bool()` (nonzero numbers are
true, booleans pass through). -/
def _coerce_bool (value : PyVal) : Bool :=
  match value with
  | .na => false
  | .str s => decide (lowerStr (trimStr s) ∈ TRUTHY_TOKENS)
  | .int n => decide (n ≠ 0)
  | .float q => decide (q ≠ 0)
  | .bool b => b

/-- Model of
`next((column for column in candidates if column in df.columns), None)`. -/
def findColumn (cands : List String) (cols : List String) : Option String :=
  cands.find? (fun c => cols.contains c)

/-- The per-row cleaning stage of `load_home_prices` (lines 185-205): trim
and cast the city, coerce the price, coerce the optional feature columns,
trim the optional continent and map the empty string to missing. -/
def cleanHomePriceRow (df : RawTable) (beach_col mountain_col continent_col :
    Option String) (row : List PyVal) :
    Option String × Option ℚ × Bool × Bool × Option String :=
  let city := (asStringVal (df.cell row "city")).map trimStr
  let price := toNumericVal (df.cell row "avg_home_price")
  let hb := match beach_col with
    | some c => _coerce_bool (df.cell row c)
    | none => false
  let hm := match mountain_col with
    | some c => _coerce_bool (df.cell row c)
    | none => false
  let cont := match continent_col with
    | some c =>
        ((asStringVal (df.cell row c)).map trimStr).bind
          (fun s => if s = "" then none else some s)
    | none => none
  (city, price, hb, hm, cont)

/-- The cleaning outcome of one attributes row: `none` exactly when the
row's city is missing or its price fails numeric coercion — the rows that
`dropna(subset=["city", "avg_home_price"])` removes — and otherwise the
fully cleaned record, whose `city_key` is the case-folded trimmed city.
The optional columns are resolved from `df.cols` by the source's fixed
priority lists (the source resolves them once before the row loop;
resolution is pure, so the per-row form is identical). -/
def cleanedCRow (df : RawTable) (row : List PyVal) : Option CRow :=
  match cleanHomePriceRow df
      (findColumn HOME_PRICE_OPTIONAL_BEACH_COLUMNS df.cols)
      (findColumn HOME_PRICE_OPTIONAL_MOUNTAIN_COLUMNS df.cols)
      (findColumn HOME_PRICE_OPTIONAL_CONTINENT_COLUMNS df.cols) row with
  | (some c, some p, hb, hm, cont) => some (⟨c, p, hb, hm, cont, lowerStr c⟩ : CRow)
  | _ => none

/-- Embedding of `load_home_prices` (`services.py` lines 172-226).  The
argument is the `pd.read_csv` result of the attributes file, or `none` when
the file does not exist.  The per-row cleaning plus
`dropna(subset=["city", "avg_home_price"])` is the `filterMap` of
`cleanedCRow`; `drop_duplicates(subset="city_key", keep="last")` is
`keepLastBy`; the final `astype`/`reindex`/`reset_index` are the
identity. -/
def load_home_prices (file : Option RawTable) : List CRow :=
  match file with
  | none => []
  | some df =>
      if df.rows.isEmpty then []
      else if HOME_PRICE_BASE_COLUMNS.any (fun c => !df.cols.contains c) then []
      else
        let dropped := df.rows.filterMap (cleanedCRow df)
        if dropped.isEmpty then []
        else keepLastBy (fun r : CRow => r.city_key) dropped

/-- The `max()` of the `avg_home_price` column (only consulted on a
non-empty table). -/
def maxHomePrice : List CRow → ℚ
  | [] => 0
  | r :: rs => rs.foldl (fun a x => max a x.avg_home_price) r.avg_home_price

/-- The beach/mountain/continent stages and final price sort of
`filter_cities_by_home_price` (lines 245-252).  In the typed model the
normalized beach/mountain/continent columns always exist, so the
`... in filtered.columns` guards are always taken.  `continents` is `none`
for Python `None` and a list otherwise; the empty list is falsy in Python,
so it applies no continent filter.  The continent comparison set keeps only
arguments that are non-empty after stripping; a missing continent cell
never matches (`isin` on `NA` is false). -/
def featureFilters (require_beach require_mountain : Bool)
    (continents : Option (List String)) (l : List CRow) : List CRow :=
  let l1 := if require_beach then l.filter (fun r => r.has_beach) else l
  let l2 := if require_mountain then l1.filter (fun r => r.has_mountain) else l1
  let l3 := match continents with
    | none => l2
    | some cs =>
        if cs.isEmpty then l2
        else
          let normalized :=
            (cs.filter (fun v => !(trimStr v = ""))).map (fun v => lowerStr (trimStr v))
          l2.filter (fun r =>
            match r.continent with
            | some cval => decide (lowerStr (trimStr cval) ∈ normalized)
            | none => false)
  List.insertionSort (fun a b => a.avg_home_price ≤ b.avg_home_price) l3

/-- Embedding of `filter_cities_by_home_price` (`services.py` lines
229-252).  `max_price` is `none` for Python `None`; a supplied rational
always converts by `float(...)`, so the `TypeError`/`ValueError` fallback
is only reachable for the `None`-like inputs already covered by `none`. -/
def filter_cities_by_home_price (home_prices : List CRow) (max_price : Option ℚ)
    (require_beach require_mountain : Bool)
    (continents : Option (List String)) : List CRow :=
  if home_prices.isEmpty then home_prices
  else
    let threshold := match max_price with
      | some p => p
      | none => maxHomePrice home_prices
    featureFilters require_beach require_mountain continents
      (home_prices.filter (fun r => decide (r.avg_home_price ≤ threshold)))

/-- Outcome of `pd.read_csv` on an existing history file: either the parse
raised (`pandas.errors.EmptyDataError`, `pandas.errors.ParserError`, ...)
or it produced a table. -/
inductive CsvReadResult where
  | failure (e : String) : CsvReadResult
  | table (t : RawTable) : CsvReadResult

/-- Embedding of `load_history` (`services.py` lines 137-154).  The
argument is `none` when the history file does not exist.  The source wraps
`pd.read_csv` in no `try`/`except`, so a parse failure propagates to the
caller: that is the `Except.error` branch.  When the parse succeeds: a
table without the `timestamp_utc` column is treated as empty; missing
columns read as `pd.NA` through `RawTable.cell` (which models the
synthesis-plus-`reindex` steps); timestamps are re-parsed permissively and
`city`/`source` are cast to strings. -/
def load_history (file : Option CsvReadResult) : Except String (List HRow) :=
  match file with
  | none => .ok []
  | some (.failure e) => .error e
  | some (.table df) =>
      if !df.cols.contains "timestamp_utc" then .ok []
      else
        .ok (df.rows.map (fun row =>
          { city := asStringVal (df.cell row "city")
            timestamp_utc := parseTimestampVal (df.cell row "timestamp_utc")
            source := asStringVal (df.cell row "source")
            description := df.cell row "description"
            temperature_C := df.cell row "temperature_C"
            feels_like_C := df.cell row "feels_like_C"
            humidity_pct := df.cell row "humidity_pct"
            wind_kmph := df.cell row "wind_kmph" }))

/-- One `weatherDesc` entry of the provider payload. -/
structure WeatherDesc where
  value : String
deriving DecidableEq

/-- The `current_condition` block of the provider payload.  The numeric
fields are rationals: they model the successful `float(...)` conversion of
a well-formed payload (a malformed numeric field raises, which no claim
here exercises). -/
structure CurrentCondition where
  weatherDesc : List WeatherDesc
  temp_C : ℚ
  FeelsLikeC : ℚ
  humidity : ℚ
  windspeedKmph : ℚ
deriving DecidableEq

/-- One hourly block of a forecast day. -/
structure HourlyBlock where
  weatherDesc : List WeatherDesc
  tempC : ℚ
  FeelsLikeC : ℚ
  humidity : ℚ
  windspeedKmph : ℚ
deriving DecidableEq

/-- A calendar date, the parse of the day's `date` field. -/
structure DateYMD where
  year : Nat
  month : Nat
  day : Nat
deriving DecidableEq

/-- One entry of the payload's `weather` list. -/
structure WeatherDay where
  date : DateYMD
  hourly : List HourlyBlock
deriving DecidableEq

/-- The provider payload, shaped as in `fetch_weather_payload`'s JSON
(`payload.get("weather", [])` is the `weather` list, empty when absent). -/
structure WeatherPayload where
  current_condition : List CurrentCondition
  weather : List WeatherDay
deriving DecidableEq

/-- The mid-day hourly selection of `normalize_weather` line 117:
`day["hourly"][4] if len(day["hourly"]) >= 5 else day["hourly"][0]`.
Indexing an empty `hourly` raises `IndexError`, hence `Option`. -/
def middayBlock (day : WeatherDay) : Option HourlyBlock :=
  if 5 ≤ day.hourly.length then day.hourly.get? 4 else day.hourly.head?

/-- The forecast row built for one day (lines 119-130); `none` models the
`IndexError` on an empty `hourly` or `weatherDesc` list. -/
def mkForecastRow (city : String) (day : WeatherDay) : Option HRow := do
  let block ← middayBlock day
  let d ← block.weatherDesc.head?
  pure
    { city := some city
      timestamp_utc := some ⟨day.date.year, day.date.month, day.date.day, 12, 0, 0⟩
      source := some "forecast"
      description := .str d.value
      temperature_C := .float block.tempC
      feels_like_C := .float block.FeelsLikeC
      humidity_pct := .float block.humidity
      wind_kmph := .float block.windspeedKmph }

/-- The `for day in payload.get("weather", [])` loop: one appended row per
day, aborting at the first day that raises. -/
def forecastRows (city : String) : List WeatherDay → Option (List HRow)
  | [] => some []
  | d :: ds => do
      let r ← mkForecastRow city d
      let rest ← forecastRows city ds
      pure (r :: rest)

/-- Embedding of `normalize_weather` (`services.py` lines 99-134).  The
wall-clock read `datetime.now(timezone.utc)` is passed in as `now`;
`datetime.fromisoformat(f"...T12:00:00+00:00")` on the day's date is the
timestamp built inside `mkForecastRow`.  The final `astype` calls do not
change the row values. -/
def normalize_weather (city : String) (now : Timestamp)
    (payload : WeatherPayload) : Option (List HRow) := do
  let current ← payload.current_condition.head?
  let cdesc ← current.weatherDesc.head?
  let currentRow : HRow :=
    { city := some city
      timestamp_utc := some now
      source := some "current"
      description := .str cdesc.value
      temperature_C := .float current.temp_C
      feels_like_C := .float current.FeelsLikeC
      humidity_pct := .float current.humidity
      wind_kmph := .float current.windspeedKmph }
  let fr ← forecastRows city payload.weather
  pure (currentRow :: fr)

/-- Python `str()` rendering of a cell value, used only by the claim-side
coercion predicate below. -/
def pyText : PyVal → String
  | .na => ""
  | .str s => s
  | .int n => toString n
  | .float q => toString q
  | .bool b => if b then "True" else "False"

/-- Claim-side boolean coercion, written from the spec sentence: true
exactly when the value, trimmed and lowercased, is one of the truthy
tokens; any other value, including missing, is false.  This second
definition exists only to be compared against `_coerce_bool`, which is the
embedding of the source. -/
def coerceBoolSpec (v : PyVal) : Bool :=
  decide (lowerStr (trimStr (pyText v)) ∈ TRUTHY_TOKENS)

/-- The row-local predicate equivalent to the beach/mountain/continent
filter stages (used to characterize `featureFilters` membership). -/
def featurePred (require_beach require_mountain : Bool)
    (continents : Option (List String)) (r : CRow) : Bool :=
  (!require_beach || r.has_beach) && (!require_mountain || r.has_mountain)
    && (match continents with
        | none => true
        | some cs =>
            if cs.isEmpty then true
            else
              match r.continent with
              | some cval =>
                  decide (lowerStr (trimStr cval) ∈
                    (cs.filter (fun v => !(trimStr v = ""))).map
                      (fun v => lowerStr (trimStr v)))
              | none => false)

/-! Concrete sample data used by counterexamples and witnesses. -/

def ts1 : Timestamp := ⟨2024, 1, 1, 6, 0, 0⟩

def ts2 : Timestamp := ⟨2024, 1, 2, 12, 0, 0⟩

def rowA : HRow :=
  { city := some "Oslo", timestamp_utc := some ts1, source := some "current"
    description := .str "clear", temperature_C := .float 1
    feels_like_C := .float 0, humidity_pct := .float 80, wind_kmph := .float 10 }

/-- Same identity key as `rowA`, different field values. -/
def rowA2 : HRow := { rowA with description := .str "cloudy" }

def rowB : HRow :=
  { city := some "Oslo", timestamp_utc := some ts2, source := some "forecast"
    description := .str "heavy Snow showers", temperature_C := .float (-3)
    feels_like_C := .float (-7), humidity_pct := .float 90, wind_kmph := .float 20 }

/-- Attributes table holding one row with a negative average price. -/
def negPriceTable : RawTable :=
  { cols := ["city", "avg_home_price"], rows := [[.str "Oslo", .float (-5)]] }

/-- Attributes table holding one well-formed row. -/
def okPriceTable : RawTable :=
  { cols := ["city", "avg_home_price"], rows := [[.str "Oslo", .float 300]] }

def crowOslo : CRow := ⟨"Oslo", 300, false, false, none, "oslo"⟩

def crowCheap : CRow := ⟨"Porto", 50, true, false, some "Europe", "porto"⟩

def emptyCities : CitiesDf := ⟨0, none⟩

def oneCityNoKey : CitiesDf := ⟨1, none⟩

def oneCityOslo : CitiesDf := ⟨1, some ["oslo"]⟩

def samplePayload : WeatherPayload :=
  { current_condition := [⟨[⟨"Sunny"⟩], 20, 19, 50, 10⟩]
    weather := [⟨⟨2024, 6, 1⟩, [⟨[⟨"Rain"⟩], 15, 14, 60, 5⟩]⟩] }

/-! Helper lemmas about `keepLastBy` and list plumbing. -/

theorem mem_of_mem_keepLastBy {α κ : Type} [DecidableEq κ] (key : α → κ)
    {a : α} : ∀ {l : List α}, a ∈ keepLastBy key l → a ∈ l := by
  intro l
  induction l with
  | nil => simp [keepLastBy]
  | cons b bs ih =>
    simp only [keepLastBy]
    split
    · intro h; exact List.mem_cons_of_mem _ (ih h)
    · intro h
      rcases List.mem_cons.mp h with h | h
      · exact h ▸ List.mem_cons_self _ _
      · exact List.mem_cons_of_mem _ (ih h)

theorem getLast?_cons_of_ne_nil {α : Type} {a : α} {l : List α} (h : l ≠ []) :
    (a :: l).getLast? = l.getLast? := by
  cases l with
  | nil => exact absurd rfl h
  | cons b bs => simp [List.getLast?]

theorem getLast?_append_of_ne_nil {α : Type} {l₂ : List α} (h : l₂ ≠ []) :
    ∀ (l₁ : List α), (l₁ ++ l₂).getLast? = l₂.getLast? := by
  intro l₁
  induction l₁ with
  | nil => simp
  | cons a as ih =>
    rw [List.cons_append, getLast?_cons_of_ne_nil, ih]
    intro hnil
    rcases List.append_eq_nil.mp hnil with ⟨-, h2⟩
    exact h h2

theorem filter_keepLastBy {α κ : Type} [DecidableEq κ] (key : α → κ)
    (k : κ) : ∀ (l : List α),
    (keepLastBy key l).filter (fun a => decide (key a = k)) =
      ((l.filter (fun a => decide (key a = k))).getLast?).toList := by
  intro l
  induction l with
  | nil => simp [keepLastBy]
  | cons a as ih =>
    simp only [keepLastBy]
    by_cases hdup : as.any (fun b => decide (key b = key a)) = true
    · rw [if_pos hdup]
      rw [ih]
      by_cases hk : key a = k
      · have hne : as.filter (fun x => decide (key x = k)) ≠ [] := by
          rcases List.any_eq_true.mp hdup with ⟨b, hb, hbk⟩
          have hmem : b ∈ as.filter (fun x => decide (key x = k)) := by
            refine List.mem_filter.mpr ⟨hb, ?_⟩
            simp only [decide_eq_true_eq] at hbk ⊢
            rw [hbk, hk]
          intro hnil
          rw [hnil] at hmem
          exact absurd hmem (List.not_mem_nil b)
        rw [List.filter_cons_of_pos (by simpa using hk),
          getLast?_cons_of_ne_nil hne]
      · rw [List.filter_cons_of_neg (by simpa using hk)]
    · rw [if_neg hdup]
      by_cases hk : key a = k
      · have hnil : as.filter (fun x => decide (key x = k)) = [] := by
          rw [List.filter_eq_nil_iff]
          intro b hb
          simp only [decide_eq_true_eq]
          intro hbk
          exact hdup (List.any_eq_true.mpr ⟨b, hb, by simp [hbk, hk]⟩)
        rw [List.filter_cons_of_pos (by simpa using hk), ih, hnil,
          List.filter_cons_of_pos (by simpa using hk), hnil]
        simp [List.getLast?]
      · rw [List.filter_cons_of_neg (by simpa using hk), ih,
          List.filter_cons_of_neg (by simpa using hk)]

theorem keepLastBy_append_covered {α κ : Type} [DecidableEq κ] (key : α → κ) :
    ∀ (xs ys : List α),
    (∀ a ∈ xs, ∃ b ∈ ys, key b = key a) →
      keepLastBy key (xs ++ ys) = keepLastBy key ys := by
  intro xs ys
  induction xs with
  | nil => simp
  | cons a as ih =>
    intro hcov
    rcases hcov a (List.mem_cons_self _ _) with ⟨b, hb, hbk⟩
    have hany : (as ++ ys).any (fun x => decide (key x = key a)) = true :=
      List.any_eq_true.mpr ⟨b, List.mem_append_right _ hb, by simp [hbk]⟩
    simp only [List.cons_append, keepLastBy]
    split
    · exact ih (fun x hx => hcov x (List.mem_cons_of_mem _ hx))
    · exact absurd hany (by assumption)

theorem keepLastBy_eq_self {α κ : Type} [DecidableEq κ] (key : α → κ) :
    ∀ (l : List α), (l.map key).Nodup → keepLastBy key l = l := by
  intro l
  induction l with
  | nil => simp [keepLastBy]
  | cons a as ih =>
    intro hnd
    rw [List.map_cons, List.nodup_cons] at hnd
    have hany : as.any (fun b => decide (key b = key a)) = false := by
      rw [List.any_eq_false]
      intro b hb
      simp only [decide_eq_true_eq]
      intro hbk
      exact hnd.1 (hbk ▸ List.mem_map_of_mem key hb)
    simp only [keepLastBy, hany]
    rw [if_neg (by simp), ih hnd.2]

theorem combined_eq_append (h n : List HRow) :
    (if h.isEmpty then n else h ++ n) = h ++ n := by
  cases h <;> simp

theorem monthName_mem_winter_iff (m : Nat) :
    monthName m ∈ WINTER_MONTH_NAMES ↔ (m = 12 ∨ m = 1 ∨ m = 2) := by
  by_cases h : 1 ≤ m ∧ m ≤ 12
  · obtain ⟨h1, h2⟩ := h
    interval_cases m <;> decide
  · have he : monthName m = "" := by rw [monthName, if_neg h]
    rw [he]
    constructor
    · intro hmem; exact absurd hmem (by decide)
    · intro hm; exact absurd (by omega : 1 ≤ m ∧ m ≤ 12) h

theorem exists_getLast?_of_ne_nil {α : Type} :
    ∀ {l : List α}, l ≠ [] → ∃ w, l.getLast? = some w := by
  intro l
  induction l with
  | nil => intro h; exact absurd rfl h
  | cons a as ih =>
    intro _
    cases as with
    | nil => exact ⟨a, rfl⟩
    | cons b bs =>
      rw [getLast?_cons_of_ne_nil (by simp)]
      exact ih (by simp)

theorem cleanHomePriceRow_price (df : RawTable)
    (bc mc cc : Option String) (row : List PyVal) :
    (cleanHomePriceRow df bc mc cc row).2.1 =
      toNumericVal (df.cell row "avg_home_price") := rfl

/-! The claims. -/

/-- Claim C1, counterexample: the claim says a row with a negative
`avg_home_price` is dropped, but `load_home_prices` retains the row
`("Oslo", -5)` — the cleaning only drops missing cities and prices that
fail numeric coercion, it never tests the sign. -/
theorem C1_counterexample :
    (load_home_prices (some negPriceTable)).any
      (fun r => decide (r.avg_home_price < 0)) = true := by decide

/-- Rows whose mapped value is `none` can be deleted from the input of a
`filterMap` without changing its output. -/
theorem filterMap_filter_isSome {α β : Type} (f : α → Option β) :
    ∀ (l : List α), (l.filter (fun a => (f a).isSome)).filterMap f = l.filterMap f := by
  intro l
  induction l with
  | nil => rfl
  | cons a as ih =>
    cases h : f a with
    | none => simp [List.filter_cons, List.filterMap_cons, h, ih]
    | some b => simp [List.filter_cons, List.filterMap_cons, h, ih]

/-- A table missing a mandatory column loads as the empty table. -/
theorem load_home_prices_nil_of_missing (df : RawTable)
    (h2 : HOME_PRICE_BASE_COLUMNS.any (fun c => !df.cols.contains c) = true) :
    load_home_prices (some df) = [] := by
  simp only [load_home_prices]
  by_cases h1 : df.rows.isEmpty
  · rw [if_pos h1]
  · rw [if_neg h1, if_pos h2]

/-- When the mandatory columns are present, the guards of
`load_home_prices` are subsumed by the clean-then-dedup pipeline. -/
theorem load_home_prices_eq (df : RawTable)
    (h2 : ¬ HOME_PRICE_BASE_COLUMNS.any (fun c => !df.cols.contains c) = true) :
    load_home_prices (some df) =
      keepLastBy (fun r : CRow => r.city_key) (df.rows.filterMap (cleanedCRow df)) := by
  simp only [load_home_prices]
  by_cases h1 : df.rows.isEmpty
  · rw [if_pos h1]
    have hnil : df.rows = [] := by simpa using h1
    rw [hnil]
    rfl
  · rw [if_neg h1, if_neg h2]
    by_cases h3 : (df.rows.filterMap (cleanedCRow df)).isEmpty
    · rw [if_pos h3]
      have hnil : df.rows.filterMap (cleanedCRow df) = [] := by simpa using h3
      rw [hnil]
      rfl
    · rw [if_neg h3]

/-- A successfully cleaned row carries exactly the numeric coercion of its
own price cell. -/
theorem cleanedCRow_price (df : RawTable) (row : List PyVal) (r : CRow)
    (h : cleanedCRow df row = some r) :
    toNumericVal (df.cell row "avg_home_price") = some r.avg_home_price := by
  unfold cleanedCRow at h
  rcases hcl : cleanHomePriceRow df
      (findColumn HOME_PRICE_OPTIONAL_BEACH_COLUMNS df.cols)
      (findColumn HOME_PRICE_OPTIONAL_MOUNTAIN_COLUMNS df.cols)
      (findColumn HOME_PRICE_OPTIONAL_CONTINENT_COLUMNS df.cols) row with
    ⟨oc, op, hb2, hm2, cont2⟩
  rw [hcl] at h
  have hpr : toNumericVal (df.cell row "avg_home_price") = op := by
    rw [← cleanHomePriceRow_price df
      (findColumn HOME_PRICE_OPTIONAL_BEACH_COLUMNS df.cols)
      (findColumn HOME_PRICE_OPTIONAL_MOUNTAIN_COLUMNS df.cols)
      (findColumn HOME_PRICE_OPTIONAL_CONTINENT_COLUMNS df.cols) row, hcl]
  cases oc with
  | none => exact absurd h (by simp)
  | some c =>
    cases op with
    | none => exact absurd h (by simp)
    | some p =>
      have hval : (⟨c, p, hb2, hm2, cont2, lowerStr c⟩ : CRow) = r :=
        Option.some_injective _ h
      rw [hpr, ← hval]

/-- Claim C1 as amended: every row retained by `load_home_prices` is
exactly the cleaned form of one of the input rows — in particular its
`avg_home_price` is the successful numeric coercion of that same row's
price cell, never a substituted default — and rows whose city is missing
or whose price fails coercion are dropped entirely: deleting exactly
those rows from the input leaves the output unchanged.  Negative prices,
however, are not filtered out. -/
theorem C1_amended (df : RawTable) (r : CRow) :
    (r ∈ load_home_prices (some df) →
      ∃ row ∈ df.rows, cleanedCRow df row = some r ∧
        toNumericVal (df.cell row "avg_home_price") = some r.avg_home_price) ∧
    load_home_prices (some df) =
      load_home_prices (some ⟨df.cols,
        df.rows.filter (fun row => (cleanedCRow df row).isSome)⟩) := by
  constructor
  · intro hr
    by_cases h2 : HOME_PRICE_BASE_COLUMNS.any (fun c => !df.cols.contains c) = true
    · rw [load_home_prices_nil_of_missing df h2] at hr
      exact absurd hr (List.not_mem_nil r)
    · rw [load_home_prices_eq df h2] at hr
      rcases List.mem_filterMap.mp (mem_of_mem_keepLastBy _ hr) with ⟨row, hrow, hf⟩
      exact ⟨row, hrow, hf, cleanedCRow_price df row r hf⟩
  · by_cases h2 : HOME_PRICE_BASE_COLUMNS.any (fun c => !df.cols.contains c) = true
    · rw [load_home_prices_nil_of_missing df h2,
        load_home_prices_nil_of_missing
          (RawTable.mk df.cols
            (df.rows.filter (fun row => (cleanedCRow df row).isSome))) h2]
    · have h2b : ¬ HOME_PRICE_BASE_COLUMNS.any (fun c =>
          !(RawTable.mk df.cols
            (df.rows.filter (fun row => (cleanedCRow df row).isSome))).cols.contains c)
            = true := h2
      rw [load_home_prices_eq df h2, load_home_prices_eq _ h2b]
      have hfun : cleanedCRow (RawTable.mk df.cols
          (df.rows.filter (fun row => (cleanedCRow df row).isSome))) = cleanedCRow df :=
        rfl
      show _ = keepLastBy (fun r : CRow => r.city_key)
        ((df.rows.filter (fun row => (cleanedCRow df row).isSome)).filterMap
          (cleanedCRow (RawTable.mk df.cols
            (df.rows.filter (fun row => (cleanedCRow df row).isSome)))))
      rw [hfun, filterMap_filter_isSome]

/-- Claim C1 witness: the amended theorem applied to the one-row table
`okPriceTable`, whose cleaned output row is `crowOslo`: the retained row
is the cleaning of the input row itself. -/
theorem C1_witness :
    ∃ row ∈ okPriceTable.rows, cleanedCRow okPriceTable row = some crowOslo ∧
      toNumericVal (okPriceTable.cell row "avg_home_price")
        = some crowOslo.avg_home_price :=
  (C1_amended okPriceTable crowOslo).1 (by decide)

/-- Claim C2: the spec requires an unparseable history file to surface as
empty history, but `load_history` wraps `pd.read_csv` in no handler, so a
parse failure (e.g. `EmptyDataError` on an empty file, `ParserError` on
ragged rows) propagates to the caller instead of yielding the empty
history. -/
theorem C2_parse_failure_surfaces :
    load_history (some (.failure "ParserError")) = .error "ParserError" := rfl

/-- Claim C3: when the incoming batch carries a row with identity key `k`
that the existing history also carries, the merged history contains
exactly one row with key `k`, namely the last incoming row with that key
(incoming wins over existing). -/
theorem C3_merge_last_wins (existing incoming : List HRow)
    (k : Option String × Option Timestamp × Option String)
    (hex : ∃ r ∈ existing, hkey r = k) (hin : ∃ r ∈ incoming, hkey r = k) :
    ∃ w, (incoming.filter (fun r => decide (hkey r = k))).getLast? = some w ∧
      (append_history existing incoming).filter
        (fun r => decide (hkey r = k)) = [w] := by
  obtain ⟨r0, hr0, hk0⟩ := hin
  have hr0f : r0 ∈ incoming.filter (fun r => decide (hkey r = k)) :=
    List.mem_filter.mpr ⟨hr0, by simp [hk0]⟩
  have hfne : incoming.filter (fun r => decide (hkey r = k)) ≠ [] := by
    intro hnil
    rw [hnil] at hr0f
    exact absurd hr0f (List.not_mem_nil r0)
  obtain ⟨w, hw⟩ := exists_getLast?_of_ne_nil hfne
  refine ⟨w, hw, ?_⟩
  have heq : (keepLastBy hkey (existing ++ incoming)).filter
      (fun r => decide (hkey r = k)) = [w] := by
    rw [filter_keepLastBy hkey k (existing ++ incoming), List.filter_append,
      getLast?_append_of_ne_nil hfne, hw]
    rfl
  have hperm : List.Perm ((append_history existing incoming).filter
      (fun r => decide (hkey r = k))) [w] := by
    unfold append_history sortByTimestamp
    rw [combined_eq_append, ← heq]
    exact (List.perm_insertionSort _ _).filter _
  exact List.perm_singleton.mp hperm

/-- Claim C3 witness: merging `[rowA]` with `[rowA2]` (same key, different
description) keeps exactly the incoming row `rowA2` for that key. -/
theorem C3_witness :
    ∃ w, (([rowA2] : List HRow).filter
        (fun r => decide (hkey r = hkey rowA))).getLast? = some w ∧
      (append_history [rowA] [rowA2]).filter
        (fun r => decide (hkey r = hkey rowA)) = [w] :=
  C3_merge_last_wins [rowA] [rowA2] (hkey rowA) (by decide) (by decide)

/-- Claim C4, counterexample: the claim quantifies over every history, but
for a history carrying two rows with the same `(city, timestamp_utc,
source)` key, merging it with itself compacts the duplicate away, so the
result is not the original history up to ordering. -/
theorem C4_counterexample :
    ¬ (append_history [rowA, rowA2] [rowA, rowA2]).Perm [rowA, rowA2] :=
  fun h => absurd h.length_eq (by decide)

/-- Claim C4 as amended: for every history whose identity keys are
pairwise distinct (the invariant every merged history satisfies),
merging it with itself returns it up to row ordering. -/
theorem C4_amended (H : List HRow) (hnd : (H.map hkey).Nodup) :
    (append_history H H).Perm H := by
  unfold append_history sortByTimestamp
  rw [combined_eq_append,
    keepLastBy_append_covered hkey H H (fun a ha => ⟨a, ha, rfl⟩),
    keepLastBy_eq_self hkey H hnd]
  exact List.perm_insertionSort _ _

/-- Claim C4 witness: the amended theorem applied to the two-row history
`[rowA, rowB]`, whose keys are distinct. -/
theorem C4_witness : (append_history [rowA, rowB] [rowA, rowB]).Perm [rowA, rowB] :=
  C4_amended [rowA, rowB] (by decide)

/-- Claim C5: disabling the winter-snow flag passes the history through
unchanged; enabling it keeps exactly the rows whose timestamp's calendar
month is December, January or February and whose description contains the
substring "snow" case-insensitively — both conditions together. -/
theorem C5_winter_snow_filter (H : List HRow) (r : HRow) :
    filter_history_for_winter_snow H false = H ∧
    (r ∈ filter_history_for_winter_snow H true ↔
      r ∈ H ∧
      (∃ t, r.timestamp_utc = some t ∧ (t.month = 12 ∨ t.month = 1 ∨ t.month = 2)) ∧
      (∃ d, asStringVal r.description = some d ∧
        strContains (lowerStr d) "snow" = true)) := by
  constructor
  · rfl
  · cases H with
    | nil => simp [filter_history_for_winter_snow]
    | cons a as =>
      rw [show filter_history_for_winter_snow (a :: as) true =
        (a :: as).filter (fun x =>
          (match x.timestamp_utc with
           | some t => decide (monthName t.month ∈ WINTER_MONTH_NAMES)
           | none => false)
          && (match asStringVal x.description with
              | some d => strContains (lowerStr d) "snow"
              | none => false)) from rfl]
      rw [List.mem_filter, Bool.and_eq_true]
      constructor
      · rintro ⟨hmem, h1, h2⟩
        refine ⟨hmem, ?_, ?_⟩
        · rcases ht : r.timestamp_utc with _ | t
          · rw [ht] at h1; exact absurd h1 (by simp)
          · rw [ht] at h1
            simp only [decide_eq_true_eq] at h1
            exact ⟨t, rfl, (monthName_mem_winter_iff t.month).mp h1⟩
        · rcases hd : asStringVal r.description with _ | d
          · rw [hd] at h2; exact absurd h2 (by simp)
          · rw [hd] at h2; exact ⟨d, rfl, h2⟩
      · rintro ⟨hmem, ⟨t, ht, hmon⟩, ⟨d, hd, hs⟩⟩
        refine ⟨hmem, ?_, ?_⟩
        · rw [ht]
          simp only [decide_eq_true_eq]
          exact (monthName_mem_winter_iff t.month).mpr hmon
        · rw [hd]; exact hs

/-- Claim C6: filtering history by an empty city set yields the empty
sequence, while filtering by a city set that covers (case-folded, trimmed)
every city of the history returns the history unchanged. -/
theorem C6_city_filter (H : List HRow) (c0 call : CitiesDf) (ks : List String)
    (h0 : c0.nrows = 0) (hks : call.city_key_col = some ks)
    (hnr : H ≠ [] → call.nrows ≠ 0)
    (hcov : ∀ r ∈ H, ∃ c, r.city = some c ∧ lowerStr (trimStr c) ∈ ks) :
    filter_history_by_cities H c0 = .ok [] ∧
      filter_history_by_cities H call = .ok H := by
  cases H with
  | nil => exact ⟨rfl, rfl⟩
  | cons a as =>
    have h1 : ¬ ((a :: as).isEmpty = true) := by simp
    constructor
    · unfold filter_history_by_cities
      rw [if_neg h1, if_pos h0]
    · unfold filter_history_by_cities
      rw [if_neg h1, if_neg (hnr (by simp)), hks]
      refine congrArg Except.ok (List.filter_eq_self.mpr ?_)
      intro x hx
      rcases hcov x hx with ⟨c, hc, hmem⟩
      rw [hc]
      simpa using hmem

/-- Claim C6 witness: one history row for Oslo, an empty cities table, and
a one-row cities table whose key set is exactly the folded city name. -/
theorem C6_witness :
    filter_history_by_cities [rowA] emptyCities = .ok [] ∧
      filter_history_by_cities [rowA] oneCityOslo = .ok [rowA] :=
  C6_city_filter [rowA] emptyCities oneCityOslo ["oslo"] rfl rfl
    (fun _ => by decide)
    (by
      intro r hr
      rw [List.mem_singleton] at hr
      subst hr
      exact ⟨"Oslo", rfl, by decide⟩)

theorem mem_featureFilters (hb hm : Bool) (conts : Option (List String))
    (l : List CRow) (r : CRow) :
    r ∈ featureFilters hb hm conts l ↔
      r ∈ l ∧ featurePred hb hm conts r = true := by
  simp only [featureFilters, featurePred]
  rw [List.Perm.mem_iff (List.perm_insertionSort _ _)]
  rcases conts with _ | cs
  · cases hb <;> cases hm <;> simp [List.mem_filter, and_assoc] <;> tauto
  · by_cases hcs : cs.isEmpty
    · cases hb <;> cases hm <;> simp [hcs, List.mem_filter, and_assoc] <;> tauto
    · cases hb <;> cases hm <;>
        rcases hcv : r.continent with _ | cval <;>
        simp [hcs, hcv, List.mem_filter, and_assoc] <;> tauto

/-- Claim C7: `filter_cities_by_home_price` is monotonic in the price
ceiling — with all other arguments fixed, every row in the result for
ceiling `p1 ≤ p2` is also in the result for ceiling `p2`. -/
theorem C7_price_ceiling_monotone (t : List CRow) (p1 p2 : ℚ) (hb hm : Bool)
    (conts : Option (List String)) (hle : p1 ≤ p2) (r : CRow)
    (hr : r ∈ filter_cities_by_home_price t (some p1) hb hm conts) :
    r ∈ filter_cities_by_home_price t (some p2) hb hm conts := by
  cases t with
  | nil => simpa [filter_cities_by_home_price] using hr
  | cons a as =>
    have hne : ¬ ((a :: as).isEmpty = true) := by simp
    simp only [filter_cities_by_home_price] at hr ⊢
    rw [if_neg hne] at hr ⊢
    rw [mem_featureFilters] at hr ⊢
    obtain ⟨hmem, hpred⟩ := hr
    rw [List.mem_filter] at hmem
    refine ⟨List.mem_filter.mpr ⟨hmem.1, ?_⟩, hpred⟩
    have hp1 : r.avg_home_price ≤ p1 := of_decide_eq_true hmem.2
    exact decide_eq_true (le_trans hp1 hle)

/-- Claim C7 witness: the cheap row survives raising the ceiling from 100
to 200. -/
theorem C7_witness :
    crowCheap ∈ filter_cities_by_home_price [crowCheap] (some 200) false false none :=
  C7_price_ceiling_monotone [crowCheap] 100 200 false false none (by norm_num)
    crowCheap (by decide)

theorem head?_eq_get?_zero {α : Type} (l : List α) : l.head? = l.get? 0 := by
  cases l <;> rfl

theorem middayBlock_eq_if (day : WeatherDay) :
    middayBlock day =
      (if 5 ≤ day.hourly.length then day.hourly.get? 4 else day.hourly.get? 0) := by
  unfold middayBlock
  by_cases h : 5 ≤ day.hourly.length
  · simp [h]
  · simp [h, head?_eq_get?_zero]

theorem forecastRows_spec (city : String) : ∀ (ds : List WeatherDay),
    (∀ day ∈ ds, ∃ blk d, middayBlock day = some blk ∧
      blk.weatherDesc.head? = some d) →
    ∃ l, forecastRows city ds = some l ∧ l.length = ds.length ∧
      ∀ i day, ds.get? i = some day → ∀ blk d, middayBlock day = some blk →
        blk.weatherDesc.head? = some d →
        l.get? i = some
          { city := some city
            timestamp_utc := some ⟨day.date.year, day.date.month, day.date.day, 12, 0, 0⟩
            source := some "forecast"
            description := .str d.value
            temperature_C := .float blk.tempC
            feels_like_C := .float blk.FeelsLikeC
            humidity_pct := .float blk.humidity
            wind_kmph := .float blk.windspeedKmph } := by
  intro ds
  induction ds with
  | nil =>
    intro _
    exact ⟨[], rfl, rfl, fun i day hday => by simp at hday⟩
  | cons d0 rest ih =>
    intro hall
    obtain ⟨blk0, dd0, hblk0, hdd0⟩ := hall d0 (List.mem_cons_self _ _)
    obtain ⟨l, hl, hlen, hget⟩ := ih (fun x hx => hall x (List.mem_cons_of_mem _ hx))
    have hrow : mkForecastRow city d0 = some
        { city := some city
          timestamp_utc := some ⟨d0.date.year, d0.date.month, d0.date.day, 12, 0, 0⟩
          source := some "forecast"
          description := .str dd0.value
          temperature_C := .float blk0.tempC
          feels_like_C := .float blk0.FeelsLikeC
          humidity_pct := .float blk0.humidity
          wind_kmph := .float blk0.windspeedKmph } := by
      unfold mkForecastRow
      rw [hblk0]
      show (blk0.weatherDesc.head? >>= _) = _
      rw [hdd0]
      rfl
    refine ⟨{ city := some city
              timestamp_utc := some ⟨d0.date.year, d0.date.month, d0.date.day, 12, 0, 0⟩
              source := some "forecast"
              description := .str dd0.value
              temperature_C := .float blk0.tempC
              feels_like_C := .float blk0.FeelsLikeC
              humidity_pct := .float blk0.humidity
              wind_kmph := .float blk0.windspeedKmph } :: l, ?_, by simp [hlen], ?_⟩
    · unfold forecastRows
      rw [hrow]
      show (forecastRows city rest >>= _) = _
      rw [hl]
      rfl
    · intro i day hday blk d hblk hd
      cases i with
      | zero =>
        rw [show (d0 :: rest).get? 0 = some d0 from rfl] at hday
        injection hday with hday
        subst hday
        rw [hblk0] at hblk
        injection hblk with hblk
        subst hblk
        rw [hdd0] at hd
        injection hd with hd
        subst hd
        rfl
      | succ n =>
        exact hget n day hday blk d hblk hd

/-- Claim C8: on a well-formed payload, `normalize_weather` returns one
current-source row built from the current-conditions block followed by one
forecast-source row per forecast day, taking hourly index 4 when at least
5 hourly entries exist and index 0 otherwise, with each forecast timestamp
equal to the day's date at 12:00:00 UTC. -/
theorem C8_normalize_shape (city : String) (now : Timestamp)
    (payload : WeatherPayload) (cur : CurrentCondition) (cd : WeatherDesc)
    (hc : payload.current_condition.head? = some cur)
    (hcd : cur.weatherDesc.head? = some cd)
    (hdays : ∀ day ∈ payload.weather, ∃ blk d,
      (if 5 ≤ day.hourly.length then day.hourly.get? 4 else day.hourly.get? 0)
        = some blk ∧ blk.weatherDesc.head? = some d) :
    ∃ rows, normalize_weather city now payload = some rows ∧
      rows.length = 1 + payload.weather.length ∧
      rows.get? 0 = some
        { city := some city, timestamp_utc := some now, source := some "current"
          description := .str cd.value, temperature_C := .float cur.temp_C
          feels_like_C := .float cur.FeelsLikeC, humidity_pct := .float cur.humidity
          wind_kmph := .float cur.windspeedKmph } ∧
      ∀ i day, payload.weather.get? i = some day → ∀ blk d,
        (if 5 ≤ day.hourly.length then day.hourly.get? 4 else day.hourly.get? 0)
          = some blk →
        blk.weatherDesc.head? = some d →
        rows.get? (i + 1) = some
          { city := some city
            timestamp_utc := some ⟨day.date.year, day.date.month, day.date.day, 12, 0, 0⟩
            source := some "forecast"
            description := .str d.value
            temperature_C := .float blk.tempC
            feels_like_C := .float blk.FeelsLikeC
            humidity_pct := .float blk.humidity
            wind_kmph := .float blk.windspeedKmph } := by
  have hdays' : ∀ day ∈ payload.weather, ∃ blk d, middayBlock day = some blk ∧
      blk.weatherDesc.head? = some d := by
    intro day hday
    rcases hdays day hday with ⟨blk, d, hif, hd⟩
    exact ⟨blk, d, by rw [middayBlock_eq_if]; exact hif, hd⟩
  obtain ⟨l, hl, hlen, hget⟩ := forecastRows_spec city payload.weather hdays'
  refine ⟨{ city := some city, timestamp_utc := some now, source := some "current"
            description := .str cd.value, temperature_C := .float cur.temp_C
            feels_like_C := .float cur.FeelsLikeC
            humidity_pct := .float cur.humidity
            wind_kmph := .float cur.windspeedKmph } :: l,
    ?_, by simp [hlen, Nat.add_comm], rfl, ?_⟩
  · unfold normalize_weather
    rw [hc]
    show (cur.weatherDesc.head? >>= _) = _
    rw [hcd]
    show (forecastRows city payload.weather >>= _) = _
    rw [hl]
    rfl
  · intro i day hday blk d hblk hd
    exact hget i day hday blk d (by rw [middayBlock_eq_if]; exact hblk) hd

/-- Claim C8 witness: the theorem applied to a concrete one-day payload
whose single hourly entry forces the index-0 fallback. -/
theorem C8_witness :
    ∃ rows, normalize_weather "Lisbon" ts1 samplePayload = some rows ∧
      rows.length = 1 + samplePayload.weather.length ∧
      rows.get? 0 = some
        { city := some "Lisbon", timestamp_utc := some ts1, source := some "current"
          description := .str "Sunny", temperature_C := .float 20
          feels_like_C := .float 19, humidity_pct := .float 50
          wind_kmph := .float 10 } ∧
      ∀ i day, samplePayload.weather.get? i = some day → ∀ blk d,
        (if 5 ≤ day.hourly.length then day.hourly.get? 4 else day.hourly.get? 0)
          = some blk →
        blk.weatherDesc.head? = some d →
        rows.get? (i + 1) = some
          { city := some "Lisbon"
            timestamp_utc := some ⟨day.date.year, day.date.month, day.date.day, 12, 0, 0⟩
            source := some "forecast"
            description := .str d.value
            temperature_C := .float blk.tempC
            feels_like_C := .float blk.FeelsLikeC
            humidity_pct := .float blk.humidity
            wind_kmph := .float blk.windspeedKmph } :=
  C8_normalize_shape "Lisbon" ts1 samplePayload ⟨[⟨"Sunny"⟩], 20, 19, 50, 10⟩
    ⟨"Sunny"⟩ rfl rfl
    (by
      intro day hday
      simp only [samplePayload] at hday
      rw [List.mem_singleton] at hday
      subst hday
      exact ⟨⟨[⟨"Rain"⟩], 15, 14, 60, 5⟩, ⟨"Rain"⟩, rfl, rfl⟩)

/-- Claim C9, counterexample: the integer cell `2` coerces to true under
`_coerce_bool` (Python truthiness of nonzero numbers), while the claim's
rule — membership of the trimmed lower-cased text in the truthy-token
set — yields false, since "2" is not a token. -/
theorem C9_counterexample :
    _coerce_bool (.int 2) = true ∧ coerceBoolSpec (.int 2) = false := by decide

/-- Claim C9 as amended: the token-set rule governs exactly the string
cells; a missing cell is false; a non-string cell follows Python `bool()`
— booleans pass through and numbers are true exactly when nonzero. -/
theorem C9_amended (v : PyVal) :
    _coerce_bool v = true ↔
      ((∃ s, v = .str s ∧ lowerStr (trimStr s) ∈ TRUTHY_TOKENS) ∨
       (∃ n, v = .int n ∧ n ≠ 0) ∨
       (∃ q, v = .float q ∧ q ≠ 0) ∨
       v = .bool true) := by
  cases v with
  | na => simp [_coerce_bool]
  | str s => simp [_coerce_bool]
  | int n => simp [_coerce_bool]
  | float q => simp [_coerce_bool]
  | bool b => cases b <;> simp [_coerce_bool]

/-- Claim C10: with a non-empty history and a non-empty cities table, the
join raises `KeyError` when the `city_key` column is absent, and succeeds
exactly when the column is present. -/
theorem C10_missing_key_column (H : List HRow) (c : CitiesDf)
    (hH : H ≠ []) (hnr : c.nrows ≠ 0) :
    (c.city_key_col = none →
      filter_history_by_cities H c =
        .error "KeyError: expected city_key column in cities_df") ∧
    ((filter_history_by_cities H c).isOk = true ↔ c.city_key_col.isSome = true) := by
  cases H with
  | nil => exact absurd rfl hH
  | cons a as =>
    have h1 : ¬ ((a :: as).isEmpty = true) := by simp
    constructor
    · intro hnone
      unfold filter_history_by_cities
      rw [if_neg h1, if_neg hnr, hnone]
    · unfold filter_history_by_cities
      rw [if_neg h1, if_neg hnr]
      rcases hck : c.city_key_col with _ | ks <;> simp [Except.isOk, Except.toBool]

/-- Claim C10 witness: a one-row history against a non-empty cities table
lacking the key column. -/
theorem C10_witness :
    (oneCityNoKey.city_key_col = none →
      filter_history_by_cities [rowA] oneCityNoKey =
        .error "KeyError: expected city_key column in cities_df") ∧
    ((filter_history_by_cities [rowA] oneCityNoKey).isOk = true ↔
      oneCityNoKey.city_key_col.isSome = true) :=
  C10_missing_key_column [rowA] oneCityNoKey (by simp) (by decide)

end TravelApp
